import Mathlib

/-!
# Samsung IR mapper: the receive / debounce / remap / transmit loop

A shallow embedding of `src/main.cpp` (`loop`, `sleep`, the call of `readVcc`) and the
properties of its dispatch, debounce and idle policy.

Modelling conventions:

* `unsigned long` is a natural number below `2 ^ 32`; the one addition the source does in that
  type (`lastReceived+300`) is reduced modulo `2 ^ 32`.  `unsigned int` (`Vcc`) is 16 bits wide
  on the AVR boards the source targets.
* `millis()` reads the field `clock`.  `delay(n)` advances it by `n`; every other statement is
  taken to need no time.  The value `millis()` has when a pass starts is an input of the pass.
* The literal `5e3` is a `double`, so `lastActive+5e3 < millis()` and `millis()>5e3` are
  evaluated in floating point.  All values involved are non-negative integers, so a `double`
  is represented by the integer it denotes, and `toDouble p` rounds to a significand of `p`
  bits (`p = 24` for avr-gcc, whose `double` is the 32-bit format; `p = 53` for binary64).
* Calls into the IR library and the power library are recorded in `log`; the diagnostic
  `Serial` output (`dumpRaw` included) and the pin-change register writes of `sleep` have no
  effect on the variables of `loop` and are left out.
* The two places where the source waits for hardware, the end of the ADC conversion in
  `readVcc` and the wake-up edge in `LowPower.powerDown`, are taken to return; what they
  return with (`vcc`, `asleep`) is an input of the pass.
-/

namespace IRRemapper

/-! ## Constants of the source -/

def NUM1 : Nat := 0xE0E020DF
def NUM2 : Nat := 0xE0E0A05F
def NUM3 : Nat := 0xE0E0609F
def NUM4 : Nat := 0xE0E010EF
def NUM5 : Nat := 0xE0E0906F

def WAKE_NUM1 : Nat := 0xE13DDA28
def WAKE_NUM2 : Nat := 0xAD586662
def WAKE_NUM3 : Nat := 0x273009C4
def WAKE_NUM4 : Nat := 0xF5999288

def HDMI1 : Nat := 0xE0E09768
def HDMI2 : Nat := 0xE0E07D82
def HDMI3 : Nat := 0xE0E043BC
def HDMI4 : Nat := 0xE0E0A35C

def MUTE : Nat := 0xE0E0F00F

def STB_POW : Nat := 0x20CFFA05
def STB_INFO : Nat := 0x20CF609F
def STB_REPEAT : Nat := 0xFFFFFFFF

/-- Low battery threshold in mV. -/
def LOW_BATTERY : Nat := 3000

/-! ## Data model -/

/-- The fields of the IR library's `decode_results` that the source reads. -/
structure decode_results where
  decode_type : Int
  value : Nat
  rawbuf : List Nat
  rawlen : Nat
  deriving DecidableEq

/-- Calls that leave `loop`: the IR library (`resume`, `sendSAMSUNG`, `enableIRIn`), `delay`,
and `LowPower.powerDown`, which `sleep` (and nothing else) calls. -/
inductive Event where
  | resume
  | sendSAMSUNG (data nbits : Nat)
  | delay (ms : Nat)
  | enableIRIn
  | powerDown
  deriving DecidableEq

/-- The global variables `resvalid`, `lastReceived`, `lastActive`, `Vcc`, the millisecond
counter, and the calls made so far in the current pass.  (`res` is only read right after a
successful `decode` has written it, so it is an input of the pass, not part of the state.) -/
structure Machine where
  resvalid : decode_results
  lastReceived : Nat
  lastActive : Nat
  Vcc : Nat
  clock : Nat
  log : List Event
  deriving DecidableEq

/-- What the outside world supplies to one pass of `loop`: the frame `irrecv.decode(&res)`
delivers (`none` when it returns false), the value of `millis()` when the pass starts, the
value `readVcc()` returns, and the number of milliseconds the counter advances while the
processor is powered down. -/
structure Env where
  frame : Option decode_results
  now : Nat
  vcc : Nat
  asleep : Nat
  deriving DecidableEq

/-- State after the static initialisers, before the first pass. -/
def boot : Machine :=
  { resvalid := { decode_type := 0, value := 0, rawbuf := [], rawlen := 0 }
    lastReceived := 0
    lastActive := 0
    Vcc := 0
    clock := 0
    log := [] }

/-! ## Operations -/

/-- Wrap to `unsigned long`. -/
def u32 (n : Nat) : Nat := n % 2 ^ 32

/-- Wrap to `unsigned int`. -/
def u16 (n : Nat) : Nat := n % 2 ^ 16

/-- Spacing of the floats with a `p`-bit significand in the binade of `n`. -/
def ulp (p n : Nat) : Nat := 2 ^ (Nat.log2 n + 1 - p)

/-- Conversion of a non-negative integer to a floating point format with a `p`-bit
significand, round to nearest, ties to even. The result is the integer the float denotes. -/
def toDouble (p n : Nat) : Nat :=
  if n < 2 ^ p then n
  else
    let u := ulp p n
    let q := n / u
    let r := n % u
    if 2 * r < u ∨ (2 * r = u ∧ q % 2 = 0) then q * u else (q + 1) * u

/-- The integers a `p`-bit significand represents exactly. -/
def Representable (p m : Nat) : Prop :=
  m < 2 ^ p ∨ ulp p m ∣ m

/-- Arduino `delay(ms)`. -/
def delay (ms : Nat) (m : Machine) : Machine :=
  { m with clock := u32 (m.clock + ms), log := m.log ++ [Event.delay ms] }

/-- IR library `irsend.sendSAMSUNG(data, nbits)`. -/
def sendSAMSUNG (data nbits : Nat) (m : Machine) : Machine :=
  { m with log := m.log ++ [Event.sendSAMSUNG data nbits] }

/-- Start of a pass: the counter has the value the environment gives it. -/
def enter (e : Env) (m : Machine) : Machine :=
  { m with clock := e.now, log := [] }

/-- Lines 96-110: `if (irrecv.decode(&res)) { ... }`. -/
def receiveStep (e : Env) (m : Machine) : Machine :=
  match e.frame with
  | none => m
  | some res =>
    { m with
      resvalid := if res.value = STB_REPEAT then m.resvalid else res
      lastReceived := m.clock
      lastActive := m.clock
      log := m.log ++ [Event.resume] }

/-- Lines 120-123: the body of `for(int i = 0; i<6; i++)`, run `n` more times. -/
def muteAlert : Nat → Machine → Machine
  | 0, m => m
  | n + 1, m => muteAlert n (delay 300 (sendSAMSUNG MUTE 32 m))

/-- The case labels of `switch (resvalid.value)` and the code each group sends. -/
def remap (v : Nat) : Option Nat :=
  if v = STB_INFO ∨ v = STB_POW ∨ v = NUM1 ∨ v = WAKE_NUM1 then some HDMI1
  else if v = NUM2 ∨ v = WAKE_NUM2 then some HDMI2
  else if v = NUM3 ∨ v = WAKE_NUM3 then some HDMI3
  else if v = NUM4 ∨ v = WAKE_NUM4 then some HDMI4
  else none

/-- Lines 127-147: `switch (resvalid.value)`. -/
def dispatchSwitch (m : Machine) : Machine :=
  match remap m.resvalid.value with
  | some out => sendSAMSUNG out 32 m
  | none => m

/-- Lines 113-149, the body of the dispatch branch. `readVcc` waits `delay(2)` and then
returns the converted ADC reading, here `e.vcc`. -/
def dispatch (e : Env) (m : Machine) : Machine :=
  let m1 := { m with lastReceived := 0 }
  let m2 := delay 2 m1
  let m3 := { m2 with Vcc := u16 e.vcc }
  let m4 := if m3.Vcc < LOW_BATTERY then muteAlert 6 m3 else m3
  let m5 := dispatchSwitch m4
  let m6 := delay 100 m5
  { m6 with log := m6.log ++ [Event.enableIRIn] }

/-- Line 112: `lastReceived > 0 && lastReceived+300 < millis()`. -/
def dispatchDue (m : Machine) : Prop :=
  0 < m.lastReceived ∧ u32 (m.lastReceived + 300) < m.clock

instance (m : Machine) : Decidable (dispatchDue m) := by
  unfold dispatchDue; infer_instance

/-- Lines 112-150. -/
def dispatchStep (e : Env) (m : Machine) : Machine :=
  if dispatchDue m then dispatch e m else m

/-- Lines 190-198: `sleep()`. -/
def sleep (e : Env) (m : Machine) : Machine :=
  let m1 := delay 20 m
  { m1 with clock := u32 (m1.clock + e.asleep), log := m1.log ++ [Event.powerDown] }

/-- Line 154: `lastActive > 0 && lastActive+5e3 < millis() && millis()>5e3`. -/
def idleDue (p : Nat) (m : Machine) : Prop :=
  0 < m.lastActive ∧ toDouble p (toDouble p m.lastActive + 5000) < toDouble p m.clock
    ∧ 5000 < toDouble p m.clock

instance (p : Nat) (m : Machine) : Decidable (idleDue p m) := by
  unfold idleDue; infer_instance

/-- Line 152: `if(lastActive == 0 || lastActive > millis()) lastActive = millis();`. -/
def resetActive (m : Machine) : Machine :=
  if m.lastActive = 0 ∨ m.lastActive > m.clock then { m with lastActive := m.clock } else m

/-- Lines 151-157. -/
def idleStep (p : Nat) (e : Env) (m : Machine) : Machine :=
  let m1 := resetActive m
  if idleDue p m1 then
    let m2 := sleep e m1
    { m2 with lastActive := m2.clock }
  else m1

/-- One pass of `loop()`. -/
def loop (p : Nat) (e : Env) (m : Machine) : Machine :=
  idleStep p e (dispatchStep e (receiveStep e (enter e m)))

/-- The machines after each of a sequence of passes. -/
def passes (p : Nat) : Machine → List Env → List Machine
  | _, [] => []
  | m, e :: es => loop p e m :: passes p (loop p e m) es

/-- Whether a call is a transmission. -/
def Event.isSend : Event → Bool
  | Event.sendSAMSUNG _ _ => true
  | _ => false

/-- The `sendSAMSUNG` calls of a log, in order. -/
def transmissions (log : List Event) : List Event :=
  log.filter Event.isSend

/-- Whether the pass that produced `m` took the dispatch branch: `enableIRIn` is called at
the end of that branch and nowhere else in `loop`. -/
def dispatched (m : Machine) : Bool :=
  decide (Event.enableIRIn ∈ m.log)

/-- Whether the pass that produced `m` called `sleep()`. -/
def slept (m : Machine) : Bool :=
  decide (Event.powerDown ∈ m.log)

/-- The case labels of the dispatch switch. -/
def caseLabels : List Nat :=
  [STB_INFO, STB_POW, NUM1, WAKE_NUM1, NUM2, WAKE_NUM2, NUM3, WAKE_NUM3, NUM4, WAKE_NUM4]

/-- The calls of the dispatch branch, given the stored supply reading and the latched code. -/
def dispatchCalls (vcc v : Nat) : List Event :=
  [Event.delay 2]
    ++ (if vcc < LOW_BATTERY then
        (List.replicate 6 [Event.sendSAMSUNG MUTE 32, Event.delay 300]).flatten else [])
    ++ (Option.map (fun out => Event.sendSAMSUNG out 32) (remap v)).toList
    ++ [Event.delay 100, Event.enableIRIn]

/-- The machine after a sequence of passes. -/
def run (p : Nat) : Machine → List Env → Machine
  | m, [] => m
  | m, e :: es => run p (loop p e m) es

/-- The machine at line 151 of a pass, where the idle check starts. -/
def atIdleCheck (e : Env) (m : Machine) : Machine :=
  dispatchStep e (receiveStep e (enter e m))

/-! ## Example inputs -/

/-- A frame that carries the command `v`. -/
def frameOf (v : Nat) : decode_results :=
  { decode_type := 7, value := v, rawbuf := [], rawlen := 0 }

/-- A machine in which the command `c` was latched at time `t`. -/
def pending (c t : Nat) : Machine :=
  { boot with resvalid := frameOf c, lastReceived := t, lastActive := t }

/-- A pass at time `now` in which no frame is decoded and `readVcc()` returns `vcc`. -/
def quiet (now vcc : Nat) : Env :=
  { frame := none, now := now, vcc := vcc, asleep := 0 }

/-- A pass at time `now` in which a frame with the value `v` is decoded. -/
def press (v now : Nat) : Env :=
  { frame := some (frameOf v), now := now, vcc := 3300, asleep := 0 }

/-- A machine that was last active at time `t` and has no command pending. -/
def idleSince (t : Nat) : Machine :=
  { boot with lastActive := t }

/-! ## Field and log lemmas for the blocks of `loop` -/

theorem muteAlert_log (n : Nat) (m : Machine) :
    (muteAlert n m).log
      = m.log ++ (List.replicate n [Event.sendSAMSUNG MUTE 32, Event.delay 300]).flatten := by
  induction n generalizing m with
  | zero => simp [muteAlert]
  | succ n ih => simp [muteAlert, ih, delay, sendSAMSUNG, List.replicate_succ]

theorem muteAlert_resvalid (n : Nat) (m : Machine) : (muteAlert n m).resvalid = m.resvalid := by
  induction n generalizing m with
  | zero => rfl
  | succ n ih => simp [muteAlert, ih, delay, sendSAMSUNG]

theorem muteAlert_lastReceived (n : Nat) (m : Machine) :
    (muteAlert n m).lastReceived = m.lastReceived := by
  induction n generalizing m with
  | zero => rfl
  | succ n ih => simp [muteAlert, ih, delay, sendSAMSUNG]

theorem muteAlert_lastActive (n : Nat) (m : Machine) :
    (muteAlert n m).lastActive = m.lastActive := by
  induction n generalizing m with
  | zero => rfl
  | succ n ih => simp [muteAlert, ih, delay, sendSAMSUNG]

theorem muteAlert_Vcc (n : Nat) (m : Machine) : (muteAlert n m).Vcc = m.Vcc := by
  induction n generalizing m with
  | zero => rfl
  | succ n ih => simp [muteAlert, ih, delay, sendSAMSUNG]

theorem transmissions_append (a b : List Event) :
    transmissions (a ++ b) = transmissions a ++ transmissions b := by
  simp [transmissions]

theorem transmissions_alert (n : Nat) :
    transmissions (List.replicate n [Event.sendSAMSUNG MUTE 32, Event.delay 300]).flatten
      = List.replicate n (Event.sendSAMSUNG MUTE 32) := by
  induction n with
  | zero => rfl
  | succ n ih =>
    simp only [List.replicate_succ, List.flatten_cons, transmissions_append, ih]
    rfl

theorem dispatchSwitch_log (m : Machine) :
    (dispatchSwitch m).log
      = m.log ++ (Option.map (fun out => Event.sendSAMSUNG out 32) (remap m.resvalid.value)).toList := by
  unfold dispatchSwitch
  cases remap m.resvalid.value <;> simp [sendSAMSUNG]

theorem dispatch_log (e : Env) (m : Machine) :
    (dispatch e m).log = m.log ++ dispatchCalls (u16 e.vcc) m.resvalid.value := by
  unfold dispatch dispatchCalls
  by_cases h : u16 e.vcc < LOW_BATTERY
  · simp [h, dispatchSwitch_log, muteAlert_log, muteAlert_resvalid, delay]
  · simp [h, dispatchSwitch_log, delay]

theorem dispatch_resvalid (e : Env) (m : Machine) : (dispatch e m).resvalid = m.resvalid := by
  unfold dispatch dispatchSwitch
  by_cases h : u16 e.vcc < LOW_BATTERY
  · simp only [delay, h, if_true]
    split <;> simp [sendSAMSUNG, muteAlert_resvalid]
  · simp only [delay, h, if_false]
    split <;> simp [sendSAMSUNG]

theorem dispatch_lastReceived (e : Env) (m : Machine) : (dispatch e m).lastReceived = 0 := by
  unfold dispatch dispatchSwitch
  by_cases h : u16 e.vcc < LOW_BATTERY
  · simp only [delay, h, if_true]
    split <;> simp [sendSAMSUNG, muteAlert_lastReceived]
  · simp only [delay, h, if_false]
    split <;> simp [sendSAMSUNG]

theorem dispatch_lastActive (e : Env) (m : Machine) :
    (dispatch e m).lastActive = m.lastActive := by
  unfold dispatch dispatchSwitch
  by_cases h : u16 e.vcc < LOW_BATTERY
  · simp only [delay, h, if_true]
    split <;> simp [sendSAMSUNG, muteAlert_lastActive]
  · simp only [delay, h, if_false]
    split <;> simp [sendSAMSUNG]

theorem dispatch_Vcc (e : Env) (m : Machine) : (dispatch e m).Vcc = u16 e.vcc := by
  unfold dispatch dispatchSwitch
  by_cases h : u16 e.vcc < LOW_BATTERY
  · simp only [delay, h, if_true]
    split <;> simp [sendSAMSUNG, muteAlert_Vcc]
  · simp only [delay, h, if_false]
    split <;> simp [sendSAMSUNG]

theorem transmissions_dispatchCalls (vcc v : Nat) :
    transmissions (dispatchCalls vcc v)
      = (if vcc < LOW_BATTERY then List.replicate 6 (Event.sendSAMSUNG MUTE 32) else [])
        ++ (Option.map (fun out => Event.sendSAMSUNG out 32) (remap v)).toList := by
  unfold dispatchCalls
  simp only [transmissions_append]
  have h1 : transmissions [Event.delay 2] = [] := rfl
  have h2 : transmissions [Event.delay 100, Event.enableIRIn] = [] := rfl
  have h3 : transmissions (Option.map (fun out => Event.sendSAMSUNG out 32) (remap v)).toList
      = (Option.map (fun out => Event.sendSAMSUNG out 32) (remap v)).toList := by
    cases remap v <;> rfl
  rw [h1, h2, h3, List.nil_append, List.append_nil]
  by_cases h : vcc < LOW_BATTERY
  · rw [if_pos h, if_pos h, transmissions_alert]
  · rw [if_neg h, if_neg h]
    rfl

theorem receiveStep_log (e : Env) (m : Machine) :
    (receiveStep e m).log = m.log ++ (if e.frame.isSome then [Event.resume] else []) := by
  unfold receiveStep
  cases e.frame <;> simp

theorem receiveStep_clock (e : Env) (m : Machine) : (receiveStep e m).clock = m.clock := by
  unfold receiveStep
  cases e.frame <;> rfl

theorem resetActive_resvalid (m : Machine) : (resetActive m).resvalid = m.resvalid := by
  unfold resetActive
  split <;> rfl

theorem resetActive_lastReceived (m : Machine) :
    (resetActive m).lastReceived = m.lastReceived := by
  unfold resetActive
  split <;> rfl

theorem resetActive_Vcc (m : Machine) : (resetActive m).Vcc = m.Vcc := by
  unfold resetActive
  split <;> rfl

theorem idleStep_resvalid (p : Nat) (e : Env) (m : Machine) :
    (idleStep p e m).resvalid = m.resvalid := by
  unfold idleStep
  by_cases h : idleDue p (resetActive m)
  · simp [h, sleep, delay, resetActive_resvalid]
  · simp [h, resetActive_resvalid]

theorem idleStep_lastReceived (p : Nat) (e : Env) (m : Machine) :
    (idleStep p e m).lastReceived = m.lastReceived := by
  unfold idleStep
  by_cases h : idleDue p (resetActive m)
  · simp [h, sleep, delay, resetActive_lastReceived]
  · simp [h, resetActive_lastReceived]

theorem idleStep_Vcc (p : Nat) (e : Env) (m : Machine) : (idleStep p e m).Vcc = m.Vcc := by
  unfold idleStep
  by_cases h : idleDue p (resetActive m)
  · simp [h, sleep, delay, resetActive_Vcc]
  · simp [h, resetActive_Vcc]

theorem resetActive_log (m : Machine) : (resetActive m).log = m.log := by
  unfold resetActive
  split <;> rfl

theorem idleStep_log (p : Nat) (e : Env) (m : Machine) :
    (idleStep p e m).log
      = m.log ++ (if idleDue p (resetActive m) then [Event.delay 20, Event.powerDown] else []) := by
  unfold idleStep
  by_cases h : idleDue p (resetActive m)
  · simp [h, sleep, delay, resetActive_log]
  · simp [h, resetActive_log]

theorem idleStep_transmissions (p : Nat) (e : Env) (m : Machine) :
    transmissions (idleStep p e m).log = transmissions m.log := by
  rw [idleStep_log, transmissions_append]
  split <;> simp [transmissions, Event.isSend]

theorem idleStep_dispatched (p : Nat) (e : Env) (m : Machine) :
    dispatched (idleStep p e m) = dispatched m := by
  unfold dispatched
  rw [idleStep_log]
  split <;> simp

/-- The transmissions of a pass are those of its dispatch branch, if it is taken. -/
theorem loop_transmissions (p : Nat) (e : Env) (m : Machine) :
    transmissions (loop p e m).log
      = if dispatchDue (receiveStep e (enter e m)) then
          transmissions (dispatchCalls (u16 e.vcc) (receiveStep e (enter e m)).resvalid.value)
        else [] := by
  unfold loop dispatchStep
  rw [idleStep_transmissions]
  have hrl : transmissions (receiveStep e (enter e m)).log = [] := by
    rw [receiveStep_log]
    simp only [enter, List.nil_append]
    split <;> rfl
  by_cases h : dispatchDue (receiveStep e (enter e m))
  · simp only [h, if_true, dispatch_log, transmissions_append, hrl, List.nil_append]
  · simp only [h, if_false, hrl]

theorem loop_Vcc_of_due (p : Nat) (e : Env) (m : Machine)
    (h : dispatchDue (receiveStep e (enter e m))) : (loop p e m).Vcc = u16 e.vcc := by
  unfold loop dispatchStep
  rw [idleStep_Vcc, if_pos h, dispatch_Vcc]

theorem remap_eq_none (c : Nat) (hc : c ∉ caseLabels) : remap c = none := by
  simp only [caseLabels, List.mem_cons, List.mem_singleton, List.not_mem_nil, or_false,
    not_or] at hc
  obtain ⟨h1, h2, h3, h4, h5, h6, h7, h8, h9, h10⟩ := hc
  simp [remap, h1, h2, h3, h4, h5, h6, h7, h8, h9, h10]

/-! ## Dispatch -/

/-- C1: in a pass of `loop` that takes the dispatch branch with a supply reading `Vcc` of at
least 3000, a latched code among NUM1..NUM4 and WAKE_NUM1..WAKE_NUM4 gives exactly one
transmission, `sendSAMSUNG(out, 32)` with `out` = HDMI1 for NUM1 and WAKE_NUM1, HDMI2 for NUM2
and WAKE_NUM2, HDMI3 for NUM3 and WAKE_NUM3, HDMI4 for NUM4 and WAKE_NUM4. -/
theorem dispatch_sends_mapped_once (p : Nat) (e : Env) (m : Machine) (c : Nat)
    (hdue : dispatchDue (receiveStep e (enter e m)))
    (hlatch : (receiveStep e (enter e m)).resvalid.value = c)
    (hc : c ∈ [NUM1, WAKE_NUM1, NUM2, WAKE_NUM2, NUM3, WAKE_NUM3, NUM4, WAKE_NUM4])
    (hv : LOW_BATTERY ≤ (loop p e m).Vcc) :
    transmissions (loop p e m).log
      = [Event.sendSAMSUNG
          (if c = NUM1 ∨ c = WAKE_NUM1 then HDMI1
           else if c = NUM2 ∨ c = WAKE_NUM2 then HDMI2
           else if c = NUM3 ∨ c = WAKE_NUM3 then HDMI3
           else HDMI4) 32] := by
  rw [loop_Vcc_of_due p e m hdue] at hv
  rw [loop_transmissions, if_pos hdue, transmissions_dispatchCalls, if_neg (Nat.not_lt.2 hv),
    hlatch, List.nil_append]
  simp only [List.mem_cons, List.mem_singleton, List.not_mem_nil, or_false] at hc
  rcases hc with rfl | rfl | rfl | rfl | rfl | rfl | rfl | rfl <;> decide

/-- Witness for C1: button 3 in its post-wake variant, dispatched at 3.3 V. -/
theorem dispatch_sends_mapped_once_witness :
    transmissions (loop 24 (quiet 2000 3300) (pending WAKE_NUM3 1000)).log
      = [Event.sendSAMSUNG HDMI3 32] :=
  dispatch_sends_mapped_once 24 (quiet 2000 3300) (pending WAKE_NUM3 1000) WAKE_NUM3
    (by decide) (by decide) (by decide) (by decide)

/-- C2 as stated fails: with a supply reading of 2900 mV the pass that dispatches NUM5, which
is no case label, makes six `sendSAMSUNG` calls. -/
theorem unmapped_low_battery_transmits :
    NUM5 ∉ caseLabels
      ∧ dispatchDue (receiveStep (quiet 2000 2900) (enter (quiet 2000 2900) (pending NUM5 1000)))
      ∧ transmissions (loop 24 (quiet 2000 2900) (pending NUM5 1000)).log
          = List.replicate 6 (Event.sendSAMSUNG MUTE 32)
      ∧ transmissions (loop 24 (quiet 2000 2900) (pending NUM5 1000)).log ≠ [] := by
  decide

/-- C2, amended: in a pass of `loop` that takes the dispatch branch with a latched code that is
no case label of the switch, there is no transmission when the supply reading `Vcc` is at
least 3000, and the transmissions are the six `sendSAMSUNG(MUTE, 32)` of the low-battery
alert, with no mapped code after them, when it is below 3000. -/
theorem unmapped_sends_only_alert (p : Nat) (e : Env) (m : Machine) (c : Nat)
    (hdue : dispatchDue (receiveStep e (enter e m)))
    (hlatch : (receiveStep e (enter e m)).resvalid.value = c)
    (hc : c ∉ caseLabels) :
    transmissions (loop p e m).log
      = if (loop p e m).Vcc < LOW_BATTERY then List.replicate 6 (Event.sendSAMSUNG MUTE 32)
        else [] := by
  rw [loop_Vcc_of_due p e m hdue, loop_transmissions, if_pos hdue, transmissions_dispatchCalls,
    hlatch, remap_eq_none c hc]
  simp

/-- Witness for C2, amended: NUM5 at 3.3 V is dropped without any transmission. -/
theorem unmapped_sends_only_alert_witness :
    transmissions (loop 24 (quiet 2000 3300) (pending NUM5 1000)).log
      = if (loop 24 (quiet 2000 3300) (pending NUM5 1000)).Vcc < LOW_BATTERY then
          List.replicate 6 (Event.sendSAMSUNG MUTE 32)
        else [] :=
  unmapped_sends_only_alert 24 (quiet 2000 3300) (pending NUM5 1000) NUM5
    (by decide) (by decide) (by decide)

/-- C6: in a pass of `loop` that takes the dispatch branch with a supply reading `Vcc` below
3000 and a latched code `c` the switch maps to `out`, the calls of the branch are the 2 ms
wait of `readVcc`, six times `sendSAMSUNG(MUTE, 32); delay(300)`, then the single
`sendSAMSUNG(out, 32)`, then the re-arming `delay(100); enableIRIn()`; the transmissions of the
pass are the six alerts followed by the mapped code. -/
theorem low_battery_alert_then_mapped (p : Nat) (e : Env) (m : Machine) (c out : Nat)
    (hdue : dispatchDue (receiveStep e (enter e m)))
    (hlatch : (receiveStep e (enter e m)).resvalid.value = c)
    (hkey : remap c = some out)
    (hlow : (loop p e m).Vcc < LOW_BATTERY) :
    (dispatchStep e (receiveStep e (enter e m))).log
        = (receiveStep e (enter e m)).log ++ [Event.delay 2]
          ++ (List.replicate 6 [Event.sendSAMSUNG MUTE 32, Event.delay 300]).flatten
          ++ [Event.sendSAMSUNG out 32]
          ++ [Event.delay 100, Event.enableIRIn]
      ∧ transmissions (loop p e m).log
          = List.replicate 6 (Event.sendSAMSUNG MUTE 32) ++ [Event.sendSAMSUNG out 32] := by
  rw [loop_Vcc_of_due p e m hdue] at hlow
  constructor
  · unfold dispatchStep
    rw [if_pos hdue, dispatch_log, hlatch]
    unfold dispatchCalls
    rw [if_pos hlow, hkey]
    simp only [Option.map_some', Option.toList_some, List.append_assoc]
  · rw [loop_transmissions, if_pos hdue, transmissions_dispatchCalls, if_pos hlow, hlatch, hkey]
    rfl

/-- Witness for C6: button 2 dispatched at 2.9 V. -/
theorem low_battery_alert_then_mapped_witness :
    (dispatchStep (quiet 2000 2900) (receiveStep (quiet 2000 2900)
        (enter (quiet 2000 2900) (pending NUM2 1000)))).log
        = (receiveStep (quiet 2000 2900) (enter (quiet 2000 2900) (pending NUM2 1000))).log
          ++ [Event.delay 2]
          ++ (List.replicate 6 [Event.sendSAMSUNG MUTE 32, Event.delay 300]).flatten
          ++ [Event.sendSAMSUNG HDMI2 32]
          ++ [Event.delay 100, Event.enableIRIn]
      ∧ transmissions (loop 24 (quiet 2000 2900) (pending NUM2 1000)).log
          = List.replicate 6 (Event.sendSAMSUNG MUTE 32) ++ [Event.sendSAMSUNG HDMI2 32] :=
  low_battery_alert_then_mapped 24 (quiet 2000 2900) (pending NUM2 1000) NUM2 HDMI2
    (by decide) (by decide) (by decide) (by decide)

theorem passes_append (p : Nat) (m : Machine) (a b : List Env) :
    passes p m (a ++ b) = passes p m a ++ passes p (run p m a) b := by
  induction a generalizing m with
  | nil => rfl
  | cons e es ih => simp [passes, run, ih]

theorem receive_none (e : Env) (m : Machine) (h : e.frame = none) :
    receiveStep e (enter e m) = enter e m := by
  unfold receiveStep
  rw [h]

theorem receive_some_resvalid (e : Env) (m : Machine) (f : decode_results)
    (h : e.frame = some f) :
    (receiveStep e (enter e m)).resvalid
      = if f.value = STB_REPEAT then m.resvalid else f := by
  unfold receiveStep
  rw [h]
  rfl

theorem receive_some_lastReceived (e : Env) (m : Machine) (f : decode_results)
    (h : e.frame = some f) : (receiveStep e (enter e m)).lastReceived = e.now := by
  unfold receiveStep
  rw [h]
  rfl

theorem loop_resvalid (p : Nat) (e : Env) (m : Machine) :
    (loop p e m).resvalid = (receiveStep e (enter e m)).resvalid := by
  unfold loop dispatchStep
  rw [idleStep_resvalid]
  split
  · rw [dispatch_resvalid]
  · rfl

theorem loop_lastReceived (p : Nat) (e : Env) (m : Machine) :
    (loop p e m).lastReceived
      = if dispatchDue (receiveStep e (enter e m)) then 0
        else (receiveStep e (enter e m)).lastReceived := by
  unfold loop dispatchStep
  rw [idleStep_lastReceived]
  split
  · rw [dispatch_lastReceived]
  · rfl

theorem loop_dispatched (p : Nat) (e : Env) (m : Machine) :
    dispatched (loop p e m) = decide (dispatchDue (receiveStep e (enter e m))) := by
  unfold loop dispatchStep
  rw [idleStep_dispatched]
  unfold dispatched
  by_cases h : dispatchDue (receiveStep e (enter e m))
  · simp [h, dispatch_log, dispatchCalls]
  · rw [if_neg h, receiveStep_log]
    have : (enter e m).log = [] := rfl
    rw [this]
    cases e.frame <;> simp [h]

theorem u32_of_lt (n : Nat) (h : n < 2 ^ 32) : u32 n = n :=
  Nat.mod_eq_of_lt h

/-- A pass without a frame, at a time not after `lastReceived + 300`, keeps the latch and
does not dispatch. -/
theorem loop_waiting (p : Nat) (e : Env) (m : Machine) (hf : e.frame = none)
    (hw : m.lastReceived + 300 < 2 ^ 32) (ht : e.now ≤ m.lastReceived + 300) :
    (loop p e m).lastReceived = m.lastReceived ∧ (loop p e m).resvalid = m.resvalid
      ∧ dispatched (loop p e m) = false := by
  have hnd : ¬ dispatchDue (receiveStep e (enter e m)) := by
    rw [receive_none e m hf]
    intro h
    have h2 := h.2
    simp only [enter] at h2
    rw [u32_of_lt _ hw] at h2
    omega
  refine ⟨?_, ?_, ?_⟩
  · rw [loop_lastReceived, if_neg hnd, receive_none e m hf]
    rfl
  · rw [loop_resvalid, receive_none e m hf]
    rfl
  · rw [loop_dispatched]
    simp [hnd]

theorem run_waiting (p : Nat) (es : List Env) (m : Machine)
    (hw : m.lastReceived + 300 < 2 ^ 32)
    (hes : ∀ e ∈ es, e.frame = none ∧ e.now ≤ m.lastReceived + 300) :
    (run p m es).lastReceived = m.lastReceived ∧ (run p m es).resvalid = m.resvalid
      ∧ (passes p m es).map dispatched = List.replicate es.length false := by
  induction es generalizing m with
  | nil => exact ⟨rfl, rfl, rfl⟩
  | cons e es ih =>
    obtain ⟨h1, h2, h3⟩ := loop_waiting p e m (hes e (List.mem_cons_self _ _)).1 hw
      (hes e (List.mem_cons_self _ _)).2
    have hes2 : ∀ x ∈ es, x.frame = none ∧ x.now ≤ (loop p e m).lastReceived + 300 := by
      intro x hx
      rw [h1]
      exact hes x (List.mem_cons_of_mem _ hx)
    obtain ⟨i1, i2, i3⟩ := ih (loop p e m) (by rw [h1]; exact hw) hes2
    refine ⟨?_, ?_, ?_⟩
    · simp only [run]
      rw [i1, h1]
    · simp only [run]
      rw [i2, h2]
    · simp only [passes, List.map_cons, h3, i3, List.length_cons, List.replicate_succ]

/-- With no command pending, passes without a frame never dispatch. -/
theorem passes_idle (p : Nat) (es : List Env) (m : Machine) (h0 : m.lastReceived = 0)
    (hes : ∀ e ∈ es, e.frame = none) :
    (passes p m es).map dispatched = List.replicate es.length false := by
  induction es generalizing m with
  | nil => rfl
  | cons e es ih =>
    have hnd : ¬ dispatchDue (receiveStep e (enter e m)) := by
      rw [receive_none e m (hes e (List.mem_cons_self _ _))]
      intro h
      have h1 := h.1
      simp only [enter] at h1
      omega
    have hl : (loop p e m).lastReceived = 0 := by
      rw [loop_lastReceived, if_neg hnd, receive_none e m (hes e (List.mem_cons_self _ _))]
      exact h0
    have hd : dispatched (loop p e m) = false := by
      rw [loop_dispatched]
      simp [hnd]
    simp only [passes, List.map_cons, hd, List.length_cons, List.replicate_succ]
    rw [ih (loop p e m) hl (fun x hx => hes x (List.mem_cons_of_mem _ hx))]

theorem u32_le (n : Nat) : u32 n ≤ n :=
  Nat.mod_le _ _

/-- A pass that decodes a frame at a time `t` with `t + 300 < 2 ^ 32` latches and does not
dispatch. -/
theorem loop_press (p : Nat) (e : Env) (m : Machine) (f : decode_results)
    (hf : e.frame = some f) (hw : e.now + 300 < 2 ^ 32) :
    (loop p e m).lastReceived = e.now
      ∧ (loop p e m).resvalid = (if f.value = STB_REPEAT then m.resvalid else f)
      ∧ dispatched (loop p e m) = false
      ∧ transmissions (loop p e m).log = [] := by
  have hlr := receive_some_lastReceived e m f hf
  have hnd : ¬ dispatchDue (receiveStep e (enter e m)) := by
    intro h
    have h2 := h.2
    rw [hlr, receiveStep_clock, u32_of_lt _ hw] at h2
    simp only [enter] at h2
    omega
  refine ⟨?_, ?_, ?_, ?_⟩
  · rw [loop_lastReceived, if_neg hnd, hlr]
  · rw [loop_resvalid, receive_some_resvalid e m f hf]
  · rw [loop_dispatched]
    simp [hnd]
  · rw [loop_transmissions, if_neg hnd]

/-- A pass without a frame, at a time after `lastReceived + 300` with a command pending,
dispatches the latched command and clears `lastReceived`. -/
theorem loop_fire (p : Nat) (e : Env) (m : Machine) (hf : e.frame = none)
    (h0 : 0 < m.lastReceived) (ht : m.lastReceived + 300 < e.now) :
    (loop p e m).lastReceived = 0
      ∧ (loop p e m).resvalid = m.resvalid
      ∧ dispatched (loop p e m) = true
      ∧ transmissions (loop p e m).log
          = transmissions (dispatchCalls (u16 e.vcc) m.resvalid.value) := by
  have hd : dispatchDue (receiveStep e (enter e m)) := by
    rw [receive_none e m hf]
    refine ⟨h0, ?_⟩
    have := u32_le (m.lastReceived + 300)
    simp only [enter]
    omega
  refine ⟨?_, ?_, ?_, ?_⟩
  · rw [loop_lastReceived, if_pos hd]
  · rw [loop_resvalid, receive_none e m hf]
    rfl
  · rw [loop_dispatched]
    simp [hd]
  · rw [loop_transmissions, if_pos hd, receive_none e m hf]
    rfl

/-! ## Debounce -/

/-- C3 as stated fails: a command decoded at `t0 = 1000` is not dispatched by the pass at
`now = 1300`, where `now - t0 = 300`; the pass at 1301 dispatches it. -/
theorem no_dispatch_at_exactly_300 :
    1300 - 1000 ≥ 300
      ∧ (passes 24 boot [press NUM1 1000, quiet 1300 3300, quiet 1301 3300]).map dispatched
          = [false, false, true] := by
  decide

/-- C3, amended: let a frame be decoded by a pass at time `t0` with `0 < t0` and
`t0 + 300 < 2 ^ 32`, and let no further frame be decoded. Then no pass at a time
`now ≤ t0 + 300` dispatches, the first pass at a time `now > t0 + 300` dispatches, with the
decoded command in the latch when the frame was not a repeat, and no later pass dispatches. -/
theorem debounce_dispatches_once_after_quiet (p : Nat) (m : Machine) (f : decode_results)
    (e0 e1 : Env) (pre post : List Env)
    (hf : f.value ≠ STB_REPEAT) (he0 : e0.frame = some f)
    (ht0 : 0 < e0.now) (hw : e0.now + 300 < 2 ^ 32)
    (hpre : ∀ e ∈ pre, e.frame = none ∧ e.now ≤ e0.now + 300)
    (he1 : e1.frame = none) (ht1 : e0.now + 300 < e1.now)
    (hpost : ∀ e ∈ post, e.frame = none) :
    (passes p m (e0 :: pre ++ e1 :: post)).map dispatched
        = false :: List.replicate pre.length false ++ true :: List.replicate post.length false
      ∧ (run p m (e0 :: pre)).resvalid = f := by
  obtain ⟨a1, a2, a3, _⟩ := loop_press p e0 m f he0 hw
  rw [if_neg hf] at a2
  obtain ⟨b1, b2, b3⟩ := run_waiting p pre (loop p e0 m) (by rw [a1]; exact hw)
    (by rw [a1]; exact hpre)
  rw [a1] at b1
  obtain ⟨c1, _, c3, _⟩ := loop_fire p e1 (run p (loop p e0 m) pre) he1 (by rw [b1]; exact ht0)
    (by rw [b1]; exact ht1)
  have d := passes_idle p post (loop p e1 (run p (loop p e0 m) pre)) c1 hpost
  constructor
  · have hsplit : e0 :: pre ++ e1 :: post = [e0] ++ (pre ++ e1 :: post) := rfl
    rw [hsplit, passes_append, passes_append]
    simp only [passes, run, List.map_append, List.map_cons, List.map_nil, a3, b3, c3, d,
      List.singleton_append]
    rfl
  · simp only [run]
    rw [b2, a2]

/-- Witness for C3, amended: NUM1 decoded at 1000, passes at 1100 and 1300 wait, the pass at
1301 dispatches, the passes at 1500 and 9000 do not. -/
theorem debounce_dispatches_once_after_quiet_witness :
    (passes 24 boot (press NUM1 1000 :: [quiet 1100 3300, quiet 1300 3300]
        ++ quiet 1301 3300 :: [quiet 1500 3300, quiet 9000 3300])).map dispatched
        = false :: List.replicate [quiet 1100 3300, quiet 1300 3300].length false
          ++ true :: List.replicate [quiet 1500 3300, quiet 9000 3300].length false
      ∧ (run 24 boot (press NUM1 1000 :: [quiet 1100 3300, quiet 1300 3300])).resvalid
          = frameOf NUM1 :=
  debounce_dispatches_once_after_quiet 24 boot (frameOf NUM1) (press NUM1 1000)
    (quiet 1301 3300) [quiet 1100 3300, quiet 1300 3300] [quiet 1500 3300, quiet 9000 3300]
    (by decide) rfl (by decide) (by decide) (by decide) rfl (by decide) (by decide)

/-- Outside the range of C3, amended: `lastReceived = 0` doubles as "nothing pending", so a
frame decoded while `millis()` is still 0 is never dispatched. -/
theorem frame_at_time_zero_not_dispatched :
    (passes 24 boot [press NUM1 0, quiet 301 3300, quiet 100000 3300]).map dispatched
      = [false, false, false] := by
  decide

/-- Outside the range of C3, amended: when `lastReceived+300` wraps, here for a frame decoded
100 ms before the counter overflows, the pass that decodes the frame dispatches it at once. -/
theorem dispatch_at_once_near_overflow :
    u32 (4294967196 + 300) = 200
      ∧ (passes 24 boot [press NUM1 4294967196]).map dispatched = [true] := by
  decide

/-! ## Repeat frames and the latch -/

/-- C4 as stated fails: a repeat frame decoded at 1200, while NUM1 latched at 1000 is
pending, moves `lastReceived` and `lastActive` from 1000 to 1200. -/
theorem repeat_frame_moves_timestamps :
    (pending NUM1 1000).lastReceived = 1000 ∧ (pending NUM1 1000).lastActive = 1000
      ∧ (receiveStep (press STB_REPEAT 1200)
          (enter (press STB_REPEAT 1200) (pending NUM1 1000))).lastReceived = 1200
      ∧ (receiveStep (press STB_REPEAT 1200)
          (enter (press STB_REPEAT 1200) (pending NUM1 1000))).lastActive = 1200 := by
  decide

/-- C4, amended: when the receive branch handles a frame whose value is STB_REPEAT, the
latched command `resvalid` keeps its value, and `lastReceived` and `lastActive` are both set
to the current time. -/
theorem repeat_frame_keeps_latch (e : Env) (m : Machine) (f : decode_results)
    (hf : e.frame = some f) (hr : f.value = STB_REPEAT) :
    (receiveStep e m).resvalid = m.resvalid
      ∧ (receiveStep e m).lastReceived = m.clock
      ∧ (receiveStep e m).lastActive = m.clock := by
  unfold receiveStep
  rw [hf]
  simp [hr]

/-- Witness for C4, amended. -/
theorem repeat_frame_keeps_latch_witness :
    (receiveStep (press STB_REPEAT 1200)
        (enter (press STB_REPEAT 1200) (pending NUM1 1000))).resvalid
        = (enter (press STB_REPEAT 1200) (pending NUM1 1000)).resvalid
      ∧ (receiveStep (press STB_REPEAT 1200)
          (enter (press STB_REPEAT 1200) (pending NUM1 1000))).lastReceived
          = (enter (press STB_REPEAT 1200) (pending NUM1 1000)).clock
      ∧ (receiveStep (press STB_REPEAT 1200)
          (enter (press STB_REPEAT 1200) (pending NUM1 1000))).lastActive
          = (enter (press STB_REPEAT 1200) (pending NUM1 1000)).clock :=
  repeat_frame_keeps_latch (press STB_REPEAT 1200)
    (enter (press STB_REPEAT 1200) (pending NUM1 1000)) (frameOf STB_REPEAT) rfl (by decide)

theorem loop_keeps_resvalid (p : Nat) (e : Env) (m : Machine)
    (h : ∀ g, e.frame = some g → g.value = STB_REPEAT) : (loop p e m).resvalid = m.resvalid := by
  rw [loop_resvalid]
  cases hf : e.frame with
  | none =>
    rw [receive_none e m hf]
    rfl
  | some g => rw [receive_some_resvalid e m g hf, if_pos (h g hf)]

theorem run_keeps_resvalid (p : Nat) (es : List Env) (m : Machine)
    (h : ∀ e ∈ es, ∀ g, e.frame = some g → g.value = STB_REPEAT) :
    (run p m es).resvalid = m.resvalid := by
  induction es generalizing m with
  | nil => rfl
  | cons e es ih =>
    simp only [run]
    rw [ih (loop p e m) (fun x hx => h x (List.mem_cons_of_mem _ hx)),
      loop_keeps_resvalid p e m (h e (List.mem_cons_self _ _))]

/-- C5: a decoded frame `f` whose value is not STB_REPEAT replaces the latched command; after
it, over any sequence of passes in which every decoded frame carries STB_REPEAT, the latched
command is still `f`; and the next pass that dispatches (without decoding a non-repeat frame
itself) transmits what the switch gives for the value of `f`, after the low-battery alert if
the supply reading asks for one. -/
theorem latch_retained_over_repeats (p : Nat) (m : Machine) (f : decode_results)
    (e0 e1 : Env) (es : List Env)
    (hf : f.value ≠ STB_REPEAT) (he0 : e0.frame = some f)
    (hes : ∀ e ∈ es, ∀ g, e.frame = some g → g.value = STB_REPEAT)
    (he1 : ∀ g, e1.frame = some g → g.value = STB_REPEAT)
    (hdue : dispatchDue (receiveStep e1 (enter e1 (run p m (e0 :: es))))) :
    (loop p e0 m).resvalid = f
      ∧ (run p m (e0 :: es)).resvalid = f
      ∧ transmissions (loop p e1 (run p m (e0 :: es))).log
          = (if u16 e1.vcc < LOW_BATTERY then List.replicate 6 (Event.sendSAMSUNG MUTE 32)
              else [])
            ++ (Option.map (fun out => Event.sendSAMSUNG out 32) (remap f.value)).toList := by
  have h0 : (loop p e0 m).resvalid = f := by
    rw [loop_resvalid, receive_some_resvalid e0 m f he0, if_neg hf]
  have h1 : (run p m (e0 :: es)).resvalid = f := by
    simp only [run]
    rw [run_keeps_resvalid p es (loop p e0 m) hes, h0]
  refine ⟨h0, h1, ?_⟩
  rw [loop_transmissions, if_pos hdue, transmissions_dispatchCalls, ← loop_resvalid p,
    loop_keeps_resvalid p e1 _ he1, h1]

/-- Witness for C5: NUM4 decoded at 1000, repeat frames at 1100 and 1200, dispatch at 1600. -/
theorem latch_retained_over_repeats_witness :
    (loop 24 (press NUM4 1000) boot).resvalid = frameOf NUM4
      ∧ (run 24 boot (press NUM4 1000 :: [press STB_REPEAT 1100, press STB_REPEAT 1200])).resvalid
          = frameOf NUM4
      ∧ transmissions (loop 24 (quiet 1600 3300)
          (run 24 boot (press NUM4 1000 :: [press STB_REPEAT 1100, press STB_REPEAT 1200]))).log
          = (if u16 (quiet 1600 3300).vcc < LOW_BATTERY then
              List.replicate 6 (Event.sendSAMSUNG MUTE 32) else [])
            ++ (Option.map (fun out => Event.sendSAMSUNG out 32)
                (remap (frameOf NUM4).value)).toList :=
  latch_retained_over_repeats 24 boot (frameOf NUM4) (press NUM4 1000) (quiet 1600 3300)
    [press STB_REPEAT 1100, press STB_REPEAT 1200] (by decide) rfl (by decide) (by decide)
    (by decide)

theorem run_append (p : Nat) (m : Machine) (a b : List Env) :
    run p m (a ++ b) = run p (run p m a) b := by
  induction a generalizing m with
  | nil => rfl
  | cons e es ih => simp [run, ih]

/-- Passes without a frame, none later than `lastReceived + 300`, transmit nothing. -/
theorem passes_waiting_transmissions (p : Nat) (es : List Env) (m : Machine)
    (hw : m.lastReceived + 300 < 2 ^ 32)
    (hes : ∀ e ∈ es, e.frame = none ∧ e.now ≤ m.lastReceived + 300) :
    (passes p m es).map (fun x => transmissions x.log) = List.replicate es.length [] := by
  induction es generalizing m with
  | nil => rfl
  | cons e es ih =>
    have he := hes e (List.mem_cons_self _ _)
    obtain ⟨h1, _, _⟩ := loop_waiting p e m he.1 hw he.2
    have hnd : ¬ dispatchDue (receiveStep e (enter e m)) := by
      rw [receive_none e m he.1]
      intro h
      have h2 := h.2
      simp only [enter] at h2
      rw [u32_of_lt _ hw] at h2
      omega
    have htx : transmissions (loop p e m).log = [] := by
      rw [loop_transmissions, if_neg hnd]
    have hes2 : ∀ x ∈ es, x.frame = none ∧ x.now ≤ (loop p e m).lastReceived + 300 := by
      intro x hx
      rw [h1]
      exact hes x (List.mem_cons_of_mem _ hx)
    simp only [passes, List.map_cons, htx, List.length_cons, List.replicate_succ]
    rw [ih (loop p e m) (by rw [h1]; exact hw) hes2]

/-- With no command pending, passes without a frame keep `lastReceived = 0` and the latch,
do not dispatch and transmit nothing. -/
theorem run_idle (p : Nat) (es : List Env) (m : Machine) (h0 : m.lastReceived = 0)
    (hes : ∀ e ∈ es, e.frame = none) :
    (run p m es).lastReceived = 0 ∧ (run p m es).resvalid = m.resvalid
      ∧ (passes p m es).map (fun x => transmissions x.log) = List.replicate es.length [] := by
  induction es generalizing m with
  | nil => exact ⟨h0, rfl, rfl⟩
  | cons e es ih =>
    have hf := hes e (List.mem_cons_self _ _)
    have hnd : ¬ dispatchDue (receiveStep e (enter e m)) := by
      rw [receive_none e m hf]
      intro h
      have h1 := h.1
      simp only [enter] at h1
      omega
    have hl : (loop p e m).lastReceived = 0 := by
      rw [loop_lastReceived, if_neg hnd, receive_none e m hf]
      exact h0
    have hr : (loop p e m).resvalid = m.resvalid := by
      rw [loop_resvalid, receive_none e m hf]
      rfl
    have htx : transmissions (loop p e m).log = [] := by
      rw [loop_transmissions, if_neg hnd]
    obtain ⟨i1, i2, i3⟩ := ih (loop p e m) hl (fun x hx => hes x (List.mem_cons_of_mem _ hx))
    refine ⟨?_, ?_, ?_⟩
    · simp only [run]
      exact i1
    · simp only [run]
      rw [i2, hr]
    · simp only [passes, List.map_cons, htx, i3, List.length_cons, List.replicate_succ]

/-- C9: from any state, decode `c` at `t1`, let passes without a frame wait through the quiet
period, dispatch in the first pass after `t1 + 300`, let any number of passes without a frame
go by, decode the identical `c` again at `t3`, wait again, dispatch in the first pass after
`t3 + 300`, and let further passes without a frame follow, with a supply reading of at
least 3000 at both dispatches: the two dispatching passes each make the one transmission
`sendSAMSUNG(out, 32)` with `out` the code the switch maps `c` to, and no other pass of the
run transmits. -/
theorem same_command_twice_sends_twice (p : Nat) (m : Machine) (c out : Nat)
    (f1 f2 : decode_results) (e1 e2 e3 e4 : Env) (w1 gap w2 post : List Env)
    (hkey : remap c = some out)
    (h1 : e1.frame = some f1) (hf1 : f1.value = c)
    (hw1 : ∀ e ∈ w1, e.frame = none ∧ e.now ≤ e1.now + 300)
    (h2 : e2.frame = none)
    (hgap : ∀ e ∈ gap, e.frame = none)
    (h3 : e3.frame = some f2) (hf2 : f2.value = c)
    (hw2 : ∀ e ∈ w2, e.frame = none ∧ e.now ≤ e3.now + 300)
    (h4 : e4.frame = none)
    (hpost : ∀ e ∈ post, e.frame = none)
    (t1 : 0 < e1.now) (b1 : e1.now + 300 < 2 ^ 32) (t2 : e1.now + 300 < e2.now)
    (t3 : 0 < e3.now) (b3 : e3.now + 300 < 2 ^ 32) (t4 : e3.now + 300 < e4.now)
    (v2 : LOW_BATTERY ≤ u16 e2.vcc) (v4 : LOW_BATTERY ≤ u16 e4.vcc) :
    (passes p m (e1 :: (w1 ++ e2 :: (gap ++ e3 :: (w2 ++ e4 :: post))))).map
        (fun x => transmissions x.log)
      = [] :: (List.replicate w1.length []
          ++ [Event.sendSAMSUNG out 32] :: (List.replicate gap.length []
            ++ [] :: (List.replicate w2.length []
              ++ [Event.sendSAMSUNG out 32] :: List.replicate post.length []))) := by
  have hne : c ≠ STB_REPEAT := by
    intro h
    have hnone : remap STB_REPEAT = none := by decide
    rw [h, hnone] at hkey
    exact Option.noConfusion hkey
  have hcalls : ∀ v, LOW_BATTERY ≤ v →
      transmissions (dispatchCalls v c) = [Event.sendSAMSUNG out 32] := by
    intro v hv
    rw [transmissions_dispatchCalls, if_neg (Nat.not_lt.2 hv), hkey]
    rfl
  -- first press
  obtain ⟨a1, a2, _, a4⟩ := loop_press p e1 m f1 h1 b1
  rw [if_neg (by rw [hf1]; exact hne)] at a2
  obtain ⟨wa1, wa2, _⟩ := run_waiting p w1 (loop p e1 m) (by rw [a1]; exact b1)
    (by rw [a1]; exact hw1)
  have wa4 := passes_waiting_transmissions p w1 (loop p e1 m) (by rw [a1]; exact b1)
    (by rw [a1]; exact hw1)
  rw [a1] at wa1
  rw [a2] at wa2
  obtain ⟨d1, d2, _, d4⟩ := loop_fire p e2 (run p (loop p e1 m) w1) h2
    (by rw [wa1]; exact t1) (by rw [wa1]; exact t2)
  rw [wa2, hf1, hcalls _ v2] at d4
  obtain ⟨g1, _, g4⟩ := run_idle p gap (loop p e2 (run p (loop p e1 m) w1)) d1 hgap
  -- second press
  obtain ⟨c1, c2, _, c4⟩ := loop_press p e3
    (run p (loop p e2 (run p (loop p e1 m) w1)) gap) f2 h3 b3
  rw [if_neg (by rw [hf2]; exact hne)] at c2
  obtain ⟨wc1, wc2, _⟩ := run_waiting p w2
    (loop p e3 (run p (loop p e2 (run p (loop p e1 m) w1)) gap)) (by rw [c1]; exact b3)
    (by rw [c1]; exact hw2)
  have wc4 := passes_waiting_transmissions p w2
    (loop p e3 (run p (loop p e2 (run p (loop p e1 m) w1)) gap)) (by rw [c1]; exact b3)
    (by rw [c1]; exact hw2)
  rw [c1] at wc1
  rw [c2] at wc2
  obtain ⟨k1, _, _, k4⟩ := loop_fire p e4
    (run p (loop p e3 (run p (loop p e2 (run p (loop p e1 m) w1)) gap)) w2) h4
    (by rw [wc1]; exact t3) (by rw [wc1]; exact t4)
  rw [wc2, hf2, hcalls _ v4] at k4
  obtain ⟨_, _, q4⟩ := run_idle p post
    (loop p e4 (run p (loop p e3 (run p (loop p e2 (run p (loop p e1 m) w1)) gap)) w2)) k1 hpost
  simp only [passes, passes_append, List.map_cons, List.map_append, a4, wa4, d4, g4, c4, wc4,
    k4, q4]

/-- Witness for C9: button 1 pressed at 1000, a waiting pass at 1200, dispatch at 1400, two
passes without a frame, the second press at 2000, a waiting pass at 2300, dispatch at 2400,
one more pass. -/
theorem same_command_twice_sends_twice_witness :
    (passes 24 boot (press NUM1 1000 :: ([quiet 1200 3300] ++ quiet 1400 3300
        :: ([quiet 1600 3300, quiet 1900 3300] ++ press NUM1 2000
          :: ([quiet 2300 3300] ++ quiet 2400 3300 :: [quiet 2600 3300]))))).map
        (fun x => transmissions x.log)
      = [] :: (List.replicate [quiet 1200 3300].length []
          ++ [Event.sendSAMSUNG HDMI1 32]
            :: (List.replicate [quiet 1600 3300, quiet 1900 3300].length []
            ++ [] :: (List.replicate [quiet 2300 3300].length []
              ++ [Event.sendSAMSUNG HDMI1 32]
                :: List.replicate [quiet 2600 3300].length []))) :=
  same_command_twice_sends_twice 24 boot NUM1 HDMI1 (frameOf NUM1) (frameOf NUM1)
    (press NUM1 1000) (quiet 1400 3300) (press NUM1 2000) (quiet 2400 3300)
    [quiet 1200 3300] [quiet 1600 3300, quiet 1900 3300] [quiet 2300 3300] [quiet 2600 3300]
    (by decide) rfl rfl (by decide) rfl (by decide) rfl rfl (by decide) rfl (by decide)
    (by decide) (by decide) (by decide) (by decide) (by decide) (by decide) (by decide)
    (by decide)

/-- C10: a dispatching pass leaves `lastReceived = 0` and does not change `resvalid`, and
both stay so over any number of following passes without a frame; if the next decoded frame
is a repeat frame at a time `t1 > 0` and no other frame follows, that pass sets
`lastReceived = t1`, the passes up to `t1 + 300` do not dispatch, and the first pass at a
time `now > t1 + 300` dispatches again with the command `c` of the earlier dispatch: its
transmissions are the low-battery alert, if the supply reading asks for one, followed by the
code the switch maps `c` to, if any. -/
theorem repeat_after_dispatch_redispatches (p : Nat) (m : Machine) (c : Nat)
    (g : decode_results) (e1 e2 e3 : Env) (gap mid : List Env)
    (hdue : dispatchDue (receiveStep e1 (enter e1 m)))
    (hc : (receiveStep e1 (enter e1 m)).resvalid.value = c)
    (hgap : ∀ e ∈ gap, e.frame = none)
    (he2 : e2.frame = some g) (hg : g.value = STB_REPEAT) (ht1 : 0 < e2.now)
    (hmid : ∀ e ∈ mid, e.frame = none ∧ e.now ≤ e2.now + 300)
    (he3 : e3.frame = none) (ht3 : e2.now + 300 < e3.now) (hb : e3.now < 2 ^ 32) :
    (loop p e1 m).lastReceived = 0
      ∧ (loop p e1 m).resvalid = (receiveStep e1 (enter e1 m)).resvalid
      ∧ (run p (loop p e1 m) gap).lastReceived = 0
      ∧ (run p (loop p e1 m) gap).resvalid = (receiveStep e1 (enter e1 m)).resvalid
      ∧ (loop p e2 (run p (loop p e1 m) gap)).lastReceived = e2.now
      ∧ (passes p (loop p e1 m) (gap ++ e2 :: (mid ++ [e3]))).map dispatched
          = List.replicate gap.length false
            ++ false :: (List.replicate mid.length false ++ [true])
      ∧ transmissions (loop p e3 (run p (loop p e1 m) (gap ++ e2 :: mid))).log
          = (if u16 e3.vcc < LOW_BATTERY then List.replicate 6 (Event.sendSAMSUNG MUTE 32)
              else [])
            ++ (Option.map (fun out => Event.sendSAMSUNG out 32) (remap c)).toList := by
  have hw : e2.now + 300 < 2 ^ 32 := by omega
  have a1 : (loop p e1 m).lastReceived = 0 := by rw [loop_lastReceived, if_pos hdue]
  have a2 := loop_resvalid p e1 m
  obtain ⟨g1, g2, _⟩ := run_idle p gap (loop p e1 m) a1 hgap
  have g3 := passes_idle p gap (loop p e1 m) a1 hgap
  rw [a2] at g2
  obtain ⟨b1, b2, b3, _⟩ := loop_press p e2 (run p (loop p e1 m) gap) g he2 hw
  rw [if_pos hg, g2] at b2
  obtain ⟨c1, c2, c3⟩ := run_waiting p mid (loop p e2 (run p (loop p e1 m) gap))
    (by rw [b1]; exact hw) (by rw [b1]; exact hmid)
  rw [b1] at c1
  obtain ⟨_, _, d3, d4⟩ := loop_fire p e3 (run p (loop p e2 (run p (loop p e1 m) gap)) mid) he3
    (by rw [c1]; exact ht1) (by rw [c1]; exact ht3)
  rw [c2, b2, hc, transmissions_dispatchCalls] at d4
  refine ⟨a1, a2, g1, g2, b1, ?_, ?_⟩
  · simp only [passes, passes_append, run, List.map_cons, List.map_append, List.map_nil, g3, b3,
      c3, d3]
  · rw [run_append]
    simp only [run]
    exact d4

/-- Witness for C10: NUM2 dispatched at 1400, passes without a frame at 1450 and 1480, a
repeat frame at 1500, a waiting pass at 1700, and the second dispatch of NUM2 at 1801. -/
theorem repeat_after_dispatch_redispatches_witness :
    (loop 24 (quiet 1400 3300) (pending NUM2 1000)).lastReceived = 0
      ∧ (loop 24 (quiet 1400 3300) (pending NUM2 1000)).resvalid
          = (receiveStep (quiet 1400 3300) (enter (quiet 1400 3300) (pending NUM2 1000))).resvalid
      ∧ (run 24 (loop 24 (quiet 1400 3300) (pending NUM2 1000))
          [quiet 1450 3300, quiet 1480 3300]).lastReceived = 0
      ∧ (run 24 (loop 24 (quiet 1400 3300) (pending NUM2 1000))
          [quiet 1450 3300, quiet 1480 3300]).resvalid
          = (receiveStep (quiet 1400 3300) (enter (quiet 1400 3300) (pending NUM2 1000))).resvalid
      ∧ (loop 24 (press STB_REPEAT 1500) (run 24 (loop 24 (quiet 1400 3300) (pending NUM2 1000))
          [quiet 1450 3300, quiet 1480 3300])).lastReceived = (press STB_REPEAT 1500).now
      ∧ (passes 24 (loop 24 (quiet 1400 3300) (pending NUM2 1000))
          ([quiet 1450 3300, quiet 1480 3300]
            ++ press STB_REPEAT 1500 :: ([quiet 1700 3300] ++ [quiet 1801 3300]))).map dispatched
          = List.replicate [quiet 1450 3300, quiet 1480 3300].length false
            ++ false :: (List.replicate [quiet 1700 3300].length false ++ [true])
      ∧ transmissions (loop 24 (quiet 1801 3300)
          (run 24 (loop 24 (quiet 1400 3300) (pending NUM2 1000))
            ([quiet 1450 3300, quiet 1480 3300]
              ++ press STB_REPEAT 1500 :: [quiet 1700 3300]))).log
          = (if u16 (quiet 1801 3300).vcc < LOW_BATTERY then
              List.replicate 6 (Event.sendSAMSUNG MUTE 32) else [])
            ++ (Option.map (fun out => Event.sendSAMSUNG out 32) (remap NUM2)).toList :=
  repeat_after_dispatch_redispatches 24 (pending NUM2 1000) NUM2 (frameOf STB_REPEAT)
    (quiet 1400 3300) (press STB_REPEAT 1500) (quiet 1801 3300)
    [quiet 1450 3300, quiet 1480 3300] [quiet 1700 3300]
    (by decide) (by decide) (by decide) rfl (by decide) (by decide) (by decide) rfl (by decide)
    (by decide)

/-! ## Rounding to `double` -/

theorem toDouble_of_lt (p n : Nat) (h : n < 2 ^ p) : toDouble p n = n := by
  unfold toDouble
  rw [if_pos h]

theorem toDouble_cases (p n : Nat) (h : 2 ^ p ≤ n) :
    toDouble p n = n / ulp p n * ulp p n ∨ toDouble p n = (n / ulp p n + 1) * ulp p n := by
  unfold toDouble
  rw [if_neg (Nat.not_lt.2 h)]
  by_cases c : 2 * (n % ulp p n) < ulp p n ∨ (2 * (n % ulp p n) = ulp p n ∧ n / ulp p n % 2 = 0)
  · left
    simp only [c, if_true]
  · right
    simp only [c, if_false]

theorem log2_eq_of_bounds (m k : Nat) (h1 : 2 ^ k ≤ m) (h2 : m < 2 ^ (k + 1)) :
    Nat.log2 m = k := by
  have hm : m ≠ 0 := by
    have := Nat.two_pow_pos k
    omega
  have a := (Nat.le_log2 hm).2 h1
  have b := (Nat.log2_lt hm).2 h2
  omega

/-- For `n` at or above `2 ^ p`, the spacing `u` of the floats around `n` and the binade
`[2 ^ k, 2 ^ (k + 1))` of `n`. -/
theorem binade (p n : Nat) (hp : 0 < p) (h : 2 ^ p ≤ n) :
    2 ^ Nat.log2 n ≤ n ∧ n < 2 ^ (Nat.log2 n + 1)
      ∧ 2 ^ (p - 1) * ulp p n = 2 ^ Nat.log2 n ∧ 2 ^ p * ulp p n = 2 ^ (Nat.log2 n + 1)
      ∧ 0 < ulp p n ∧ p ≤ Nat.log2 n := by
  have hn : n ≠ 0 := by
    have := Nat.two_pow_pos p
    omega
  have hk : p ≤ Nat.log2 n := (Nat.le_log2 hn).2 h
  refine ⟨Nat.log2_self_le hn, Nat.lt_log2_self, ?_, ?_, ?_, ?_⟩
  · unfold ulp
    rw [← pow_add]
    congr 1
    omega
  · unfold ulp
    rw [← pow_add]
    congr 1
    omega
  · exact Nat.two_pow_pos _
  · exact hk

theorem toDouble_of_log2 (p n k : Nat) (hn : 2 ^ p ≤ n) (hk : Nat.log2 n = k) :
    toDouble p n
      = if 2 * (n % 2 ^ (k + 1 - p)) < 2 ^ (k + 1 - p)
          ∨ (2 * (n % 2 ^ (k + 1 - p)) = 2 ^ (k + 1 - p) ∧ n / 2 ^ (k + 1 - p) % 2 = 0)
        then n / 2 ^ (k + 1 - p) * 2 ^ (k + 1 - p)
        else (n / 2 ^ (k + 1 - p) + 1) * 2 ^ (k + 1 - p) := by
  subst hk
  unfold toDouble ulp
  rw [if_neg (Nat.not_lt.2 hn)]

theorem toDouble_floor_le (p n : Nat) (h : 2 ^ p ≤ n) :
    n / ulp p n * ulp p n ≤ toDouble p n := by
  rcases toDouble_cases p n h with c | c <;> rw [c]
  exact Nat.mul_le_mul_right _ (Nat.le_succ _)

/-- Rounding never falls below a representable value that the argument is at or above. -/
theorem le_toDouble (p m x : Nat) (hp : 0 < p) (hm : Representable p m) (h : m ≤ x) :
    m ≤ toDouble p x := by
  by_cases hx : x < 2 ^ p
  · rw [toDouble_of_lt p x hx]
    exact h
  · have hx2 : 2 ^ p ≤ x := Nat.le_of_not_lt hx
    obtain ⟨b1, b2, b3, b4, b5, b6⟩ := binade p x hp hx2
    refine Nat.le_trans ?_ (toDouble_floor_le p x hx2)
    have hq : 2 ^ (p - 1) ≤ x / ulp p x := by
      rw [Nat.le_div_iff_mul_le b5, b3]
      exact b1
    by_cases hmk : m < 2 ^ Nat.log2 x
    · calc m ≤ 2 ^ Nat.log2 x := Nat.le_of_lt hmk
        _ = 2 ^ (p - 1) * ulp p x := b3.symm
        _ ≤ x / ulp p x * ulp p x := Nat.mul_le_mul_right _ hq
    · have hmk2 : 2 ^ Nat.log2 x ≤ m := Nat.le_of_not_lt hmk
      have hlog : Nat.log2 m = Nat.log2 x :=
        log2_eq_of_bounds m _ hmk2 (Nat.lt_of_le_of_lt h b2)
      have hu : ulp p m = ulp p x := by
        unfold ulp
        rw [hlog]
      have hpm : ¬ m < 2 ^ p :=
        Nat.not_lt.2 (Nat.le_trans (Nat.pow_le_pow_right (by norm_num) b6) hmk2)
      rcases hm with hm | hm
      · exact absurd hm hpm
      · rw [hu] at hm
        obtain ⟨j, hj⟩ := hm
        have hjx : j * ulp p x ≤ x := by
          rw [Nat.mul_comm, ← hj]
          exact h
        have hjq : j ≤ x / ulp p x := (Nat.le_div_iff_mul_le b5).2 hjx
        rw [hj, Nat.mul_comm]
        exact Nat.mul_le_mul_right _ hjq

/-- The result of rounding is representable. -/
theorem toDouble_representable (p n : Nat) (hp : 0 < p) : Representable p (toDouble p n) := by
  by_cases hn : n < 2 ^ p
  · rw [toDouble_of_lt p n hn]
    exact Or.inl hn
  · have hn2 : 2 ^ p ≤ n := Nat.le_of_not_lt hn
    obtain ⟨b1, b2, b3, b4, b5, b6⟩ := binade p n hp hn2
    have hq1 : 2 ^ (p - 1) ≤ n / ulp p n := by
      rw [Nat.le_div_iff_mul_le b5, b3]
      exact b1
    have hq2 : n / ulp p n < 2 ^ p := by
      rw [Nat.div_lt_iff_lt_mul b5, b4]
      exact b2
    have hlo : 2 ^ Nat.log2 n ≤ n / ulp p n * ulp p n := by
      rw [← b3]
      exact Nat.mul_le_mul_right _ hq1
    have hfl : n / ulp p n * ulp p n ≤ n := Nat.div_mul_le_self _ _
    have hup : (n / ulp p n + 1) * ulp p n ≤ 2 ^ (Nat.log2 n + 1) := by
      rw [← b4]
      exact Nat.mul_le_mul_right _ hq2
    right
    rcases toDouble_cases p n hn2 with c | c <;> rw [c]
    · have hl := log2_eq_of_bounds _ _ hlo (Nat.lt_of_le_of_lt hfl b2)
      unfold ulp at hl ⊢
      rw [hl]
      exact Nat.dvd_mul_left _ _
    · by_cases htop : (n / ulp p n + 1) * ulp p n < 2 ^ (Nat.log2 n + 1)
      · have hlo2 : 2 ^ Nat.log2 n ≤ (n / ulp p n + 1) * ulp p n :=
          Nat.le_trans hlo (Nat.mul_le_mul_right _ (Nat.le_succ _))
        have hl := log2_eq_of_bounds _ _ hlo2 htop
        unfold ulp at hl ⊢
        rw [hl]
        exact Nat.dvd_mul_left _ _
      · have heq : (n / ulp p n + 1) * ulp p n = 2 ^ (Nat.log2 n + 1) :=
          Nat.le_antisymm hup (Nat.le_of_not_lt htop)
        rw [heq]
        unfold ulp
        rw [Nat.log2_two_pow]
        exact pow_dvd_pow 2 (by omega)

/-! ## Idle check -/

theorem loop_eq_idleStep (p : Nat) (e : Env) (m : Machine) :
    loop p e m = idleStep p e (atIdleCheck e m) := rfl

theorem powerDown_not_mem_dispatchCalls (vcc v : Nat) :
    Event.powerDown ∉ dispatchCalls vcc v := by
  unfold dispatchCalls
  by_cases h : vcc < LOW_BATTERY <;> cases remap v <;> simp [h]

theorem atIdleCheck_log (e : Env) (m : Machine) : Event.powerDown ∉ (atIdleCheck e m).log := by
  unfold atIdleCheck dispatchStep
  have hr : Event.powerDown ∉ (receiveStep e (enter e m)).log := by
    rw [receiveStep_log]
    have : (enter e m).log = [] := rfl
    rw [this]
    cases e.frame <;> simp
  split
  · rw [dispatch_log, List.mem_append, not_or]
    exact ⟨hr, powerDown_not_mem_dispatchCalls _ _⟩
  · exact hr

theorem atIdleCheck_lastActive (e : Env) (m : Machine) (hf : e.frame = none) :
    (atIdleCheck e m).lastActive = m.lastActive := by
  unfold atIdleCheck dispatchStep
  rw [receive_none e m hf]
  split
  · rw [dispatch_lastActive]
    rfl
  · rfl

theorem slept_loop (p : Nat) (e : Env) (m : Machine) :
    slept (loop p e m) = decide (idleDue p (resetActive (atIdleCheck e m))) := by
  unfold slept
  rw [loop_eq_idleStep, idleStep_log]
  have h := atIdleCheck_log e m
  by_cases c : idleDue p (resetActive (atIdleCheck e m))
  · simp [c]
  · simp [c, h]

/-- Just after `lastActive = millis()` the sleep condition is false, whatever the rounding. -/
theorem not_idleDue_of_fresh (p : Nat) (hp : 0 < p) (m : Machine)
    (h : m.lastActive = m.clock) : ¬ idleDue p m := by
  intro hd
  have h2 := hd.2.1
  rw [h] at h2
  have := le_toDouble p (toDouble p m.clock) (toDouble p m.clock + 5000) hp
    (toDouble_representable p m.clock hp) (Nat.le_add_right _ _)
  omega

theorem idleStep_of_not_due (p : Nat) (e : Env) (m : Machine)
    (h : ¬ idleDue p (resetActive m)) : idleStep p e m = resetActive m := by
  unfold idleStep
  simp only [h, if_false]

theorem idleStep_of_due (p : Nat) (e : Env) (m : Machine) (h : idleDue p (resetActive m)) :
    idleStep p e m
      = { sleep e (resetActive m) with lastActive := (sleep e (resetActive m)).clock } := by
  unfold idleStep
  simp only [h, if_true]

/-- Within the range a `double` holds exactly, the sleep condition is the integer one. -/
theorem idleDue_iff_exact (p : Nat) (m : Machine) (h1 : m.clock < 2 ^ p)
    (h2 : m.lastActive + 5000 < 2 ^ p) :
    idleDue p m ↔ 0 < m.lastActive ∧ m.lastActive + 5000 < m.clock := by
  unfold idleDue
  rw [toDouble_of_lt p m.lastActive (by omega), toDouble_of_lt p _ h2, toDouble_of_lt p _ h1]
  constructor
  · rintro ⟨a, b, _⟩
    exact ⟨a, b⟩
  · rintro ⟨a, b⟩
    exact ⟨a, b, by omega⟩

/-- C7 as stated fails: with `lastActive = 1000` and `now = 6000`, past the grace period and
with `now - lastActive = 5000`, the idle check does not call `sleep()`, for the 32-bit and for
the 64-bit `double`; it does at `now = 6001`. -/
theorem no_sleep_at_exactly_5000 :
    6000 - 1000 ≥ 5000 ∧ 6000 > 5000
      ∧ (atIdleCheck (quiet 6000 3300) (idleSince 1000)).lastActive = 1000
      ∧ (atIdleCheck (quiet 6000 3300) (idleSince 1000)).clock = 6000
      ∧ slept (loop 24 (quiet 6000 3300) (idleSince 1000)) = false
      ∧ slept (loop 53 (quiet 6000 3300) (idleSince 1000)) = false
      ∧ slept (loop 24 (quiet 6001 3300) (idleSince 1000)) = true := by
  decide

/-- Outside the range of C7, amended: with the 32-bit `double` and counter values above
`2 ^ 24` the comparison is made on rounded values; here the sleep condition holds 4994 ms
after the last activity. -/
theorem float32_sleep_condition_before_5000 :
    536875937 - 536870943 = 4994
      ∧ idleDue 24 { boot with lastActive := 536870943, clock := 536875937 } := by
  have l1 : Nat.log2 536870943 = 29 := log2_eq_of_bounds _ 29 (by norm_num) (by norm_num)
  have l2 : Nat.log2 536875912 = 29 := log2_eq_of_bounds _ 29 (by norm_num) (by norm_num)
  have l3 : Nat.log2 536875937 = 29 := log2_eq_of_bounds _ 29 (by norm_num) (by norm_num)
  have r1 : toDouble 24 536870943 = 536870912 := by
    rw [toDouble_of_log2 24 536870943 29 (by norm_num) l1]
    norm_num
  have r2 : toDouble 24 536875912 = 536875904 := by
    rw [toDouble_of_log2 24 536875912 29 (by norm_num) l2]
    norm_num
  have r3 : toDouble 24 536875937 = 536875968 := by
    rw [toDouble_of_log2 24 536875937 29 (by norm_num) l3]
    norm_num
  refine ⟨by norm_num, ?_⟩
  unfold idleDue
  show 0 < 536870943 ∧ toDouble 24 (toDouble 24 536870943 + 5000) < toDouble 24 536875937
    ∧ 5000 < toDouble 24 536875937
  rw [r1, r3]
  have r2b : toDouble 24 (536870912 + 5000) = 536875904 := r2
  rw [r2b]
  norm_num

/-- C7, amended: write `la` and `now` for `lastActive` and `millis()` when the idle check of a
pass starts, both in the range the `double` holds exactly (`now < 2 ^ p`,
`la + 5000 < 2 ^ p`). The idle check calls `sleep()` exactly when `0 < la` and
`la + 5000 < now` (more than 5000 ms without activity; `now > 5000` follows). When it does,
`lastActive` is set to the time at which `sleep()` returns; when it does not, in particular
whenever `now ≤ la + 5000`, `lastActive` is `now` if it was 0 or ahead of `now` and is
unchanged otherwise. -/
theorem idle_check_sleeps_iff (p : Nat) (e : Env) (m : Machine)
    (hnow : (atIdleCheck e m).clock < 2 ^ p)
    (hla : (atIdleCheck e m).lastActive + 5000 < 2 ^ p) :
    (slept (loop p e m) = true
        ↔ 0 < (atIdleCheck e m).lastActive
          ∧ (atIdleCheck e m).lastActive + 5000 < (atIdleCheck e m).clock)
      ∧ (loop p e m).lastActive
          = (if slept (loop p e m) = true then (loop p e m).clock
             else if (atIdleCheck e m).lastActive = 0
                ∨ (atIdleCheck e m).lastActive > (atIdleCheck e m).clock
              then (atIdleCheck e m).clock
             else (atIdleCheck e m).lastActive)
      ∧ (loop p e m).clock
          = (if slept (loop p e m) = true then
              u32 (u32 ((atIdleCheck e m).clock + 20) + e.asleep)
             else (atIdleCheck e m).clock) := by
  have hp : 0 < p := by
    rcases Nat.eq_zero_or_pos p with h | h
    · rw [h] at hla
      simp at hla
    · exact h
  rw [slept_loop, loop_eq_idleStep]
  simp only [decide_eq_true_eq]
  by_cases hr : (atIdleCheck e m).lastActive = 0
      ∨ (atIdleCheck e m).lastActive > (atIdleCheck e m).clock
  · have hreset : resetActive (atIdleCheck e m)
        = { atIdleCheck e m with lastActive := (atIdleCheck e m).clock } := by
      unfold resetActive
      rw [if_pos hr]
    have hnd : ¬ idleDue p (resetActive (atIdleCheck e m)) :=
      not_idleDue_of_fresh p hp _ (by rw [hreset])
    have hno : ¬ (0 < (atIdleCheck e m).lastActive
        ∧ (atIdleCheck e m).lastActive + 5000 < (atIdleCheck e m).clock) := by
      omega
    rw [idleStep_of_not_due p e _ hnd]
    simp only [hnd, if_false, hr, if_true]
    refine ⟨⟨fun h => absurd h id, fun h => absurd h hno⟩, ?_, ?_⟩
    · rw [hreset]
    · rw [hreset]
  · have hreset : resetActive (atIdleCheck e m) = atIdleCheck e m := by
      unfold resetActive
      rw [if_neg hr]
    have hiff := idleDue_iff_exact p (atIdleCheck e m) hnow hla
    by_cases hd : idleDue p (resetActive (atIdleCheck e m))
    · rw [idleStep_of_due p e _ hd]
      simp only [hd, if_true, true_iff]
      rw [hreset] at hd
      refine ⟨hiff.1 hd, trivial, ?_⟩
      rw [hreset]
      rfl
    · rw [idleStep_of_not_due p e _ hd]
      simp only [hd, if_false, hr, false_iff]
      rw [hreset] at hd ⊢
      exact ⟨fun h => hd (hiff.2 h), rfl, rfl⟩

/-- Witness for C7, amended: idle since 1000, the pass at 6001 sleeps. -/
theorem idle_check_sleeps_iff_witness :
    (slept (loop 24 (quiet 6001 3300) (idleSince 1000)) = true
        ↔ 0 < (atIdleCheck (quiet 6001 3300) (idleSince 1000)).lastActive
          ∧ (atIdleCheck (quiet 6001 3300) (idleSince 1000)).lastActive + 5000
              < (atIdleCheck (quiet 6001 3300) (idleSince 1000)).clock)
      ∧ (loop 24 (quiet 6001 3300) (idleSince 1000)).lastActive
          = (if slept (loop 24 (quiet 6001 3300) (idleSince 1000)) = true then
              (loop 24 (quiet 6001 3300) (idleSince 1000)).clock
             else if (atIdleCheck (quiet 6001 3300) (idleSince 1000)).lastActive = 0
                ∨ (atIdleCheck (quiet 6001 3300) (idleSince 1000)).lastActive
                    > (atIdleCheck (quiet 6001 3300) (idleSince 1000)).clock
              then (atIdleCheck (quiet 6001 3300) (idleSince 1000)).clock
             else (atIdleCheck (quiet 6001 3300) (idleSince 1000)).lastActive)
      ∧ (loop 24 (quiet 6001 3300) (idleSince 1000)).clock
          = (if slept (loop 24 (quiet 6001 3300) (idleSince 1000)) = true then
              u32 (u32 ((atIdleCheck (quiet 6001 3300) (idleSince 1000)).clock + 20)
                + (quiet 6001 3300).asleep)
             else (atIdleCheck (quiet 6001 3300) (idleSince 1000)).clock) :=
  idle_check_sleeps_iff 24 (quiet 6001 3300) (idleSince 1000) (by decide) (by decide)

/-- C8: in a pass without a decoded frame, if `lastActive` is ahead of the value `now` that
`millis()` has when the idle check starts, the pass ends with `lastActive = now` and without
a call of `sleep()`; `now` is the time the pass started at unless the pass dispatched. -/
theorem wraparound_resets_without_sleep (p : Nat) (e : Env) (m : Machine) (hp : 0 < p)
    (hf : e.frame = none) (hahead : m.lastActive > (atIdleCheck e m).clock) :
    (loop p e m).lastActive = (atIdleCheck e m).clock
      ∧ slept (loop p e m) = false
      ∧ (atIdleCheck e m).clock
          = (if dispatchDue (enter e m) then (dispatch e (enter e m)).clock else e.now) := by
  have hla := atIdleCheck_lastActive e m hf
  have hreset : resetActive (atIdleCheck e m)
      = { atIdleCheck e m with lastActive := (atIdleCheck e m).clock } := by
    unfold resetActive
    rw [if_pos (Or.inr (by rw [hla]; exact hahead))]
  have hnd : ¬ idleDue p (resetActive (atIdleCheck e m)) :=
    not_idleDue_of_fresh p hp _ (by rw [hreset])
  refine ⟨?_, ?_, ?_⟩
  · rw [loop_eq_idleStep, idleStep_of_not_due p e _ hnd, hreset]
  · rw [slept_loop]
    simp [hnd]
  · unfold atIdleCheck dispatchStep
    rw [receive_none e m hf]
    split <;> rfl

/-- Witness for C8: the counter has wrapped to 50 while `lastActive` is still 4294967000. -/
theorem wraparound_resets_without_sleep_witness :
    (loop 24 (quiet 50 3300) (idleSince 4294967000)).lastActive
        = (atIdleCheck (quiet 50 3300) (idleSince 4294967000)).clock
      ∧ slept (loop 24 (quiet 50 3300) (idleSince 4294967000)) = false
      ∧ (atIdleCheck (quiet 50 3300) (idleSince 4294967000)).clock
          = (if dispatchDue (enter (quiet 50 3300) (idleSince 4294967000)) then
              (dispatch (quiet 50 3300) (enter (quiet 50 3300) (idleSince 4294967000))).clock
             else (quiet 50 3300).now) :=
  wraparound_resets_without_sleep 24 (quiet 50 3300) (idleSince 4294967000) (by decide) rfl
    (by decide)

end IRRemapper
